import Mathlib

set_option maxRecDepth 10000

/-!
Shallow embedding of `convert_to_smplx.py` (MANO → SMPL-X conversion).

Arrays are modelled as a shape together with the flat (row-major) element
list, mirroring the numpy layout.  Element values are `Int` (the conversion
only copies elements and synthesizes zeros, so the numeric carrier is
irrelevant; `is_right` is 0/1-valued).  Fallible numpy operations
(indexing out of bounds, the `assert` statements, the `ValueError` raised
for an unsupported `is_right` shape) are modelled with `Except PyError`.
Console warnings that the script prints without raising are collected in
a `List Warning`.
-/

/-- A numpy array: shape and row-major flat data. -/
structure NpArray where
  shape : List Nat
  data : List Int
deriving DecidableEq, Repr

/-- Rank: `len(a.shape)`. -/
def NpArray.rank (a : NpArray) : Nat := a.shape.length

/-- A materialized numpy array always has as many elements as the product of
its shape. -/
def NpArray.wf (a : NpArray) : Prop := a.data.length = a.shape.prod

instance (a : NpArray) : Decidable a.wf := by unfold NpArray.wf; infer_instance

/-- Numpy `a[np.newaxis, ...]`: prepend an axis of size 1; data unchanged. -/
def NpArray.newaxis (a : NpArray) : NpArray := ⟨1 :: a.shape, a.data⟩

/-- Numpy `np.zeros(s)` (dtype irrelevant to the model). -/
def NpArray.zeros (s : List Nat) : NpArray := ⟨s, List.replicate s.prod 0⟩

/-- Numpy `a.reshape(t, -1)`: numpy computes the free dimension as
`a.size / t`; at every call site of the script `t` divides the size. -/
def NpArray.reshape2 (a : NpArray) (t : Nat) : NpArray :=
  ⟨[t, a.data.length / t], a.data⟩

/-- Numpy `a.reshape(b, t, -1)`. -/
def NpArray.reshape3 (a : NpArray) (b t : Nat) : NpArray :=
  ⟨[b, t, a.data.length / (b * t)], a.data⟩

/-- Errors the script can raise.  `indexError` stands for the Python
`IndexError` ("tuple index out of range" / "index out of bounds"), whose
message carries no array shape.  The two assertion errors carry exactly
what their f-string messages name, and `valueErrorIsRightShape` carries
the shape named by the `ValueError` in `analyze_hands_in_data`. -/
inductive PyError where
  | indexError : PyError
  | assertRankError : List Nat → PyError
  | assertLastDimError : Nat → PyError
  | valueErrorIsRightShape : List Nat → PyError
deriving DecidableEq, Repr

/-- Whether the message of an error names an array shape (or offending
dimension).  A bare `IndexError` does not. -/
def PyError.namesShape : PyError → Bool
  | .indexError => false
  | .assertRankError _ => true
  | .assertLastDimError _ => true
  | .valueErrorIsRightShape _ => true

/-- Non-fatal console warnings of the script. -/
inductive Warning where
  | noIsRight : Warning
  | noBetas : Warning
  | inconsistentIsRight : Nat → List Int → Warning
deriving DecidableEq, Repr

instance {ε α : Type} [DecidableEq ε] [DecidableEq α] : DecidableEq (Except ε α) := fun
  | .ok a, .ok b => decidable_of_iff (a = b) (by simp)
  | .ok _, .error _ => .isFalse (by simp)
  | .error _, .ok _ => .isFalse (by simp)
  | .error e, .error f => decidable_of_iff (e = f) (by simp)

/-- Lookup `a.shape[i]`, raising `IndexError` ("tuple index out of range") when
`i` is not a valid axis. -/
def shapeAt (a : NpArray) (i : Nat) : Except PyError Nat :=
  if h : i < a.shape.length then .ok (a.shape.get ⟨i, h⟩) else .error .indexError

/-- Indexing `a[b]` for `b` a position along axis 0: the remaining slice, or
`IndexError` when out of bounds. -/
def NpArray.index0 (a : NpArray) (b : Nat) : Except PyError NpArray :=
  match a.shape with
  | [] => .error .indexError
  | d :: rest =>
      if b < d then .ok ⟨rest, (a.data.drop (b * rest.prod)).take rest.prod⟩
      else .error .indexError

/-- Element `a[0]` of a rank-1 array, as a scalar. -/
def NpArray.scalar0 (a : NpArray) : Except PyError Int :=
  if 0 < a.shape.getD 0 0 then .ok (a.data.getD 0 0) else .error .indexError

/-- Insert into a sorted list of integers. -/
def insertInt (x : Int) : List Int → List Int
  | [] => [x]
  | y :: ys => if x ≤ y then x :: y :: ys else y :: insertInt x ys

/-- Numpy `np.unique`: the distinct values, sorted ascending. -/
def npUnique (l : List Int) : List Int := (l.foldr insertInt []).dedup

/-- The input `.npz` bundle.  The three required fields are present (the
script indexes them unconditionally); the rest are optional. -/
structure RawBundle where
  pose_body : NpArray
  root_orient : NpArray
  trans : NpArray
  betas : Option NpArray
  is_right : Option NpArray
  cam_R : Option NpArray
  cam_t : Option NpArray
  intrins : Option NpArray
deriving DecidableEq, Repr

/-- One entry of the list returned by `analyze_hands_in_data`. -/
structure HandInfo where
  batch_idx : Nat
  is_right : Bool
  num_frames : Nat
deriving DecidableEq, Repr

/-- Result of the shape-normalization block of `convert_mano_to_smplx`
(lines 94–120): normalized `pose_body`, `root_orient`, `trans` and the
inferred `B`, `T`. -/
structure NormResult where
  pose_body : NpArray
  root_orient : NpArray
  trans : NpArray
  B : Nat
  T : Nat
deriving DecidableEq, Repr

/-- The two `assert` statements (lines 119–120): final `pose_body` must
have rank 3 and last dimension 45; the first failure names the full
shape, the second names the actual last dimension. -/
def checkAsserts (pb : NpArray) : Except PyError Unit :=
  if pb.rank = 3 then do
    let d ← shapeAt pb 2
    if d = 45 then .ok () else .error (.assertLastDimError d)
  else .error (.assertRankError pb.shape)

/-- Lines 94–120 of `convert_mano_to_smplx`: rank-driven normalization of
`pose_body` (with `root_orient` and `trans` gaining a leading axis in the
rank-3 and rank-2 branches), then the two asserts.  The `else` branch
reads `shape[0]` and `shape[1]` of the untouched array, exactly as the
Python does. -/
def normalizePose (pb ro tr : NpArray) : Except PyError NormResult := do
  if pb.rank = 4 then
    let B ← shapeAt pb 0
    let T ← shapeAt pb 1
    let pb2 := pb.reshape3 B T
    checkAsserts pb2
    return ⟨pb2, ro, tr, B, T⟩
  else if pb.rank = 3 then
    let T ← shapeAt pb 0
    let pb2 := (pb.reshape2 T).newaxis
    checkAsserts pb2
    return ⟨pb2, ro.newaxis, tr.newaxis, 1, T⟩
  else if pb.rank = 2 then
    let pb2 := pb.newaxis
    let T ← shapeAt pb2 1
    checkAsserts pb2
    return ⟨pb2, ro.newaxis, tr.newaxis, 1, T⟩
  else
    let B ← shapeAt pb 0
    let T ← shapeAt pb 1
    checkAsserts pb
    return ⟨pb, ro, tr, B, T⟩

/-- Lines 123–130: `betas` handling.  Rank 1 is promoted by `newaxis`;
absence synthesizes `np.zeros((B, 10))` and warns. -/
def normalizeBetas (b : Option NpArray) (B : Nat) : List Warning × NpArray :=
  match b with
  | some be => ([], if be.rank = 1 then be.newaxis else be)
  | none => ([Warning.noBetas], NpArray.zeros [B, 10])

/-- Row `b` of a rank-2 array (`is_right[b]` flattened to its values). -/
def rowOf (ir : NpArray) (b : Nat) : List Int :=
  (ir.data.drop (b * ir.shape.getD 1 0)).take (ir.shape.getD 1 0)

/-- One iteration of the rank-2 loop of `analyze_hands_in_data`:
`np.unique` consistency check (warning only), then
`bool(is_right[b, 0])` — an `IndexError` when the time axis is empty. -/
def analyzeRow (ir : NpArray) (b : Nat) : Except PyError (List Warning × HandInfo) :=
  let T0 := ir.shape.getD 1 0
  let row := rowOf ir b
  let u := npUnique row
  let w := if 1 < u.length then [Warning.inconsistentIsRight b u] else []
  if 0 < T0 then .ok (w, ⟨b, row.getD 0 0 != 0, T0⟩) else .error .indexError

/-- The `for b in range(is_right.shape[0])` loop, accumulating warnings
and `HandInfo`s in order. -/
def analyzeRows (ir : NpArray) : List Nat → Except PyError (List Warning × List HandInfo)
  | [] => .ok ([], [])
  | b :: rest => do
      let (w, i) ← analyzeRow ir b
      let (ws, infos) ← analyzeRows ir rest
      return (w ++ ws, i :: infos)

/-- Function `analyze_hands_in_data` (lines 23–61), applied to the raw bundle.
With no `is_right`: warn and return one right-hand `HandInfo` whose frame
count is read from the *raw* `pose_body.shape[1]`.  Rank 1: single
trajectory from the first element.  Rank 2: per-row loop.  Other ranks:
`ValueError` naming the shape. -/
def analyze_hands_in_data (r : RawBundle) : Except PyError (List Warning × List HandInfo) :=
  match r.is_right with
  | none => do
      let t ← shapeAt r.pose_body 1
      return ([Warning.noIsRight], [⟨0, true, t⟩])
  | some ir =>
      if ir.rank = 1 then do
        let v ← ir.scalar0
        return ([], [⟨0, v != 0, ir.shape.getD 0 0⟩])
      else if ir.rank = 2 then
        analyzeRows ir (List.range (ir.shape.getD 0 0))
      else .error (.valueErrorIsRightShape ir.shape)

/-- One per-trajectory output dictionary (lines 151–220).  The
`_metadata` entries that matter to the spec are kept as plain fields. -/
structure OutputBundle where
  body_pose : NpArray
  global_orient : NpArray
  transl : NpArray
  betas : NpArray
  right_hand_pose : NpArray
  left_hand_pose : NpArray
  cam_R : Option NpArray
  cam_t : Option NpArray
  intrins : Option NpArray
  meta_batch_idx : Nat
  meta_is_right : Bool
  meta_num_frames : Nat
deriving DecidableEq, Repr

/-- An arbitrary bundle, used only as the default of `List.getD` /
`List.headD` in closed statements. -/
def defaultBundle : OutputBundle :=
  ⟨⟨[], []⟩, ⟨[], []⟩, ⟨[], []⟩, ⟨[], []⟩, ⟨[], []⟩, ⟨[], []⟩, none, none, none, 0, false, 0⟩

/-- Camera pass-through (lines 194–206): a camera field is indexed by
the trajectory when its rank exceeds the threshold of the branch (2 for
`cam_R`, 1 for `cam_t`) and `B > 1`; otherwise it is copied verbatim. -/
def camPass (c : Option NpArray) (threshold B b : Nat) : Except PyError (Option NpArray) :=
  match c with
  | none => .ok none
  | some cam =>
      if threshold < cam.rank ∧ 1 < B then
        do return some (← cam.index0 b)
      else .ok (some cam)

/-- The body of the `for hand_info in hands_info` loop (lines 147–220):
index every canonical array at `b = hand_info.batch_idx`, zero-fill
`body_pose` and the opposite hand, route the hand pose by sidedness,
copy camera fields via `camPass`, and pass `intrins` verbatim. -/
def buildBundle (pb ro tr be : NpArray) (B T : Nat)
    (camR camT intr : Option NpArray) (info : HandInfo) :
    Except PyError OutputBundle := do
  let hand_pose ← pb.index0 info.batch_idx
  let global_orient ← ro.index0 info.batch_idx
  let transl ← tr.index0 info.batch_idx
  let betas_mean ← be.index0 info.batch_idx
  let camR2 ← camPass camR 2 B info.batch_idx
  let camT2 ← camPass camT 1 B info.batch_idx
  return { body_pose := NpArray.zeros [T, 63]
           global_orient := global_orient
           transl := transl
           betas := betas_mean
           right_hand_pose := if info.is_right then hand_pose else NpArray.zeros [T, 45]
           left_hand_pose := if info.is_right then NpArray.zeros [T, 45] else hand_pose
           cam_R := camR2
           cam_t := camT2
           intrins := intr
           meta_batch_idx := info.batch_idx
           meta_is_right := info.is_right
           meta_num_frames := T }

/-- The trajectory loop: bundles in `hands_info` order; the first raised
error aborts the whole conversion. -/
def buildAll (pb ro tr be : NpArray) (B T : Nat)
    (camR camT intr : Option NpArray) :
    List HandInfo → Except PyError (List OutputBundle)
  | [] => .ok []
  | i :: rest => do
      let o ← buildBundle pb ro tr be B T camR camT intr i
      let os ← buildAll pb ro tr be B T camR camT intr rest
      return (o :: os)

/-- Function `convert_mano_to_smplx`, file reads and writes stripped: normalize shapes, handle
`betas`, infer sidedness from the *raw* bundle, then build one output
bundle per detected hand.  Returns the collected warnings and the bundle
list, or the first raised error (in which case nothing is written). -/
def convert_mano_to_smplx (r : RawBundle) :
    Except PyError (List Warning × List OutputBundle) := do
  let nr ← normalizePose r.pose_body r.root_orient r.trans
  let be := (normalizeBetas r.betas nr.B).2
  let wh ← analyze_hands_in_data r
  let outs ← buildAll nr.pose_body nr.root_orient nr.trans be nr.B nr.T
      r.cam_R r.cam_t r.intrins wh.2
  return ((normalizeBetas r.betas nr.B).1 ++ wh.1, outs)

/-- Success test without relying on library naming. -/
def exceptOk {ε α : Type} : Except ε α → Bool
  | .ok _ => true
  | .error _ => false


/-- Rank-4 branch of the normalizer: `[B,T,15,3]` flattens to `[B,T,45]`
keeping `B` and `T`; `root_orient` and `trans` are untouched. -/
lemma normalizePose_rank4 (pb ro tr : NpArray) (B T : Nat)
    (hs : pb.shape = [B, T, 15, 3]) (hw : pb.data.length = B * T * 45)
    (hB : 0 < B) (hT : 0 < T) :
    normalizePose pb ro tr = .ok ⟨⟨[B, T, 45], pb.data⟩, ro, tr, B, T⟩ := by
  obtain ⟨s, d⟩ := pb
  simp only [NpArray.shape] at hs
  simp only [NpArray.data] at hw
  subst hs
  have h45 : d.length / (B * T) = 45 := by
    rw [hw]
    exact Nat.mul_div_cancel_left _ (Nat.mul_pos hB hT)
  simp [normalizePose, NpArray.rank, shapeAt, NpArray.reshape3, checkAsserts, h45,
    Bind.bind, Except.bind, Functor.map, Except.map, Pure.pure, Except.pure]

/-- Rank-3 branch of the normalizer on a `[T,15,3]` array: flatten to
`[T,45]`, then prepend a trajectory axis of size 1 to `pose_body`,
`root_orient` and `trans`; `B = 1`. -/
lemma normalizePose_rank3_153 (pb ro tr : NpArray) (T : Nat)
    (hs : pb.shape = [T, 15, 3]) (hw : pb.data.length = T * 45) (hT : 0 < T) :
    normalizePose pb ro tr = .ok ⟨⟨[1, T, 45], pb.data⟩, ro.newaxis, tr.newaxis, 1, T⟩ := by
  obtain ⟨s, d⟩ := pb
  simp only [NpArray.shape] at hs
  simp only [NpArray.data] at hw
  subst hs
  have h45 : d.length / T = 45 := by
    rw [hw]
    exact Nat.mul_div_cancel_left _ hT
  simp [normalizePose, NpArray.rank, shapeAt, NpArray.reshape2, NpArray.newaxis, checkAsserts,
    h45, Bind.bind, Except.bind, Functor.map, Except.map, Pure.pure, Except.pure]

/-- Rank-2 branch of the normalizer on a `[T,45]` array: prepend a
trajectory axis of size 1 to all three arrays; `B = 1`, `T` read off the
new axis-1 length. -/
lemma normalizePose_rank2 (pb ro tr : NpArray) (T : Nat)
    (hs : pb.shape = [T, 45]) :
    normalizePose pb ro tr = .ok ⟨pb.newaxis, ro.newaxis, tr.newaxis, 1, T⟩ := by
  obtain ⟨s, d⟩ := pb
  simp only [NpArray.shape] at hs
  subst hs
  simp [normalizePose, NpArray.rank, shapeAt, NpArray.newaxis, checkAsserts,
    Bind.bind, Except.bind, Functor.map, Except.map, Pure.pure, Except.pure]

/-- Whenever normalization succeeds, the reported `B` and `T` are read
off the normalized `pose_body` shape: `B = shape[0]`, `T = shape[1]`. -/
lemma normalizePose_ok_BT (pb ro tr : NpArray) (res : NormResult)
    (h : normalizePose pb ro tr = .ok res) :
    res.B = res.pose_body.shape.getD 0 0 ∧ res.T = res.pose_body.shape.getD 1 0 := by
  obtain ⟨s, d⟩ := pb
  match s with
  | [] =>
      simp [normalizePose, NpArray.rank, shapeAt, Bind.bind, Except.bind] at h
  | [a] =>
      simp [normalizePose, NpArray.rank, shapeAt, Bind.bind, Except.bind] at h
  | [a, b] =>
      simp [normalizePose, NpArray.rank, shapeAt, NpArray.newaxis, checkAsserts,
        Bind.bind, Except.bind, Functor.map, Except.map, Pure.pure, Except.pure] at h
      split at h <;> simp_all
      subst h
      simp
  | [a, b, c] =>
      simp [normalizePose, NpArray.rank, shapeAt, NpArray.reshape2, NpArray.newaxis, checkAsserts,
        Bind.bind, Except.bind, Functor.map, Except.map, Pure.pure, Except.pure] at h
      split at h <;> simp_all
      subst h
      simp
  | [a, b, c, e] =>
      simp [normalizePose, NpArray.rank, shapeAt, NpArray.reshape3, checkAsserts,
        Bind.bind, Except.bind, Functor.map, Except.map, Pure.pure, Except.pure] at h
      split at h <;> simp_all
      subst h
      simp
  | a :: b :: c :: e :: f :: rest =>
      simp [normalizePose, NpArray.rank, shapeAt, checkAsserts,
        Bind.bind, Except.bind, Functor.map, Except.map, Pure.pure, Except.pure] at h

/-- C6: normalization of each accepted non-canonical `pose_body` layout
produces shape `[B,T,45]`: rank-4 `[B,T,15,3]` flattens the last two axes
keeping `B` and `T`; rank-3 `[T,15,3]` flattens to `[T,45]` and prepends
a trajectory axis of size 1 to `pose_body`, `root_orient` and `trans`;
rank-2 `[T,45]` prepends the axis to all three; and afterwards
`B = pose_body.shape[0]` and `T = pose_body.shape[1]`. -/
theorem C6_normalizer_layouts (pb ro tr : NpArray) (B T : Nat) :
    (pb.shape = [B, T, 15, 3] → pb.data.length = B * T * 45 → 0 < B → 0 < T →
      normalizePose pb ro tr = .ok ⟨⟨[B, T, 45], pb.data⟩, ro, tr, B, T⟩) ∧
    (pb.shape = [T, 15, 3] → pb.data.length = T * 45 → 0 < T →
      normalizePose pb ro tr = .ok ⟨⟨[1, T, 45], pb.data⟩, ro.newaxis, tr.newaxis, 1, T⟩) ∧
    (pb.shape = [T, 45] →
      normalizePose pb ro tr = .ok ⟨pb.newaxis, ro.newaxis, tr.newaxis, 1, T⟩) ∧
    (∀ res : NormResult, normalizePose pb ro tr = .ok res →
      res.B = res.pose_body.shape.getD 0 0 ∧ res.T = res.pose_body.shape.getD 1 0) :=
  ⟨fun hs hw hB hT => normalizePose_rank4 pb ro tr B T hs hw hB hT,
   fun hs hw hT => normalizePose_rank3_153 pb ro tr T hs hw hT,
   fun hs => normalizePose_rank2 pb ro tr T hs,
   fun res h => normalizePose_ok_BT pb ro tr res h⟩

theorem C6_witness :
    normalizePose ⟨[2, 3, 15, 3], List.replicate 270 0⟩ ⟨[2, 3, 3], List.replicate 18 0⟩
        ⟨[2, 3, 3], List.replicate 18 0⟩
      = .ok ⟨⟨[2, 3, 45], List.replicate 270 0⟩, ⟨[2, 3, 3], List.replicate 18 0⟩,
          ⟨[2, 3, 3], List.replicate 18 0⟩, 2, 3⟩ ∧
    normalizePose ⟨[4, 45], List.replicate 180 0⟩ ⟨[4, 3], List.replicate 12 0⟩
        ⟨[4, 3], List.replicate 12 0⟩
      = .ok ⟨⟨[1, 4, 45], List.replicate 180 0⟩, ⟨[1, 4, 3], List.replicate 12 0⟩,
          ⟨[1, 4, 3], List.replicate 12 0⟩, 1, 4⟩ :=
  ⟨(C6_normalizer_layouts ⟨[2, 3, 15, 3], List.replicate 270 0⟩ ⟨[2, 3, 3], List.replicate 18 0⟩
      ⟨[2, 3, 3], List.replicate 18 0⟩ 2 3).1 rfl (by decide) (by decide) (by decide),
   (C6_normalizer_layouts ⟨[4, 45], List.replicate 180 0⟩ ⟨[4, 3], List.replicate 12 0⟩
      ⟨[4, 3], List.replicate 12 0⟩ 1 4).2.2.1 rfl⟩

/-- C5 (amended): for a raw bundle whose `pose_body` arrives in one of
the accepted layouts with matching `root_orient`/`trans`, the canonical
canonical `pose_body`, `root_orient` and `trans` share the same `B` and
`T`; `betas` also shares `B` provided it is absent, already `[B,10]`, or
rank-1 with `B = 1` — a rank-1 `betas` is promoted only to `[1,10]`, so
with `B > 1` it does not share `B` (see the counterexample). -/
theorem C5_canonical_shapes (pb ro tr : NpArray) (betas : Option NpArray) (B T : Nat)
    (hB : 0 < B) (hT : 0 < T)
    (hpose :
      (pb.shape = [B, T, 15, 3] ∧ pb.data.length = B * T * 45 ∧
        ro.shape = [B, T, 3] ∧ tr.shape = [B, T, 3]) ∨
      (B = 1 ∧ pb.shape = [T, 15, 3] ∧ pb.data.length = T * 45 ∧
        ro.shape = [T, 3] ∧ tr.shape = [T, 3]) ∨
      (B = 1 ∧ pb.shape = [T, 45] ∧ ro.shape = [T, 3] ∧ tr.shape = [T, 3]))
    (hbet : betas = none ∨
      (∃ be, betas = some be ∧ (be.shape = [B, 10] ∨ (be.shape = [10] ∧ B = 1)))) :
    ∃ res : NormResult, normalizePose pb ro tr = .ok res ∧
      res.B = B ∧ res.T = T ∧
      res.pose_body.shape = [B, T, 45] ∧
      res.root_orient.shape = [B, T, 3] ∧
      res.trans.shape = [B, T, 3] ∧
      (normalizeBetas betas B).2.shape = [B, 10] := by
  have hbe : (normalizeBetas betas B).2.shape = [B, 10] := by
    rcases hbet with h | ⟨be, hbe, hsh | ⟨hsh, hB1⟩⟩
    · subst h; simp [normalizeBetas, NpArray.zeros]
    · subst hbe
      have : be.rank ≠ 1 := by simp [NpArray.rank, hsh]
      simp [normalizeBetas, this, hsh]
    · subst hbe hB1
      have : be.rank = 1 := by simp [NpArray.rank, hsh]
      simp [normalizeBetas, this, NpArray.newaxis, hsh]
  rcases hpose with ⟨hs, hw, hro, htr⟩ | ⟨hB1, hs, hw, hro, htr⟩ | ⟨hB1, hs, hro, htr⟩
  · exact ⟨_, normalizePose_rank4 pb ro tr B T hs hw hB hT, rfl, rfl, rfl, hro, htr, hbe⟩
  · subst hB1
    exact ⟨_, normalizePose_rank3_153 pb ro tr T hs hw hT, rfl, rfl, rfl,
      by simp [NpArray.newaxis, hro], by simp [NpArray.newaxis, htr], hbe⟩
  · subst hB1
    exact ⟨_, normalizePose_rank2 pb ro tr T hs, rfl, rfl,
      by simp [NpArray.newaxis, hs], by simp [NpArray.newaxis, hro],
      by simp [NpArray.newaxis, htr], hbe⟩

theorem C5_counterexample :
    normalizePose ⟨[2, 1, 15, 3], List.replicate 90 0⟩ ⟨[2, 1, 3], List.replicate 6 0⟩
        ⟨[2, 1, 3], List.replicate 6 0⟩
      = .ok ⟨⟨[2, 1, 45], List.replicate 90 0⟩, ⟨[2, 1, 3], List.replicate 6 0⟩,
          ⟨[2, 1, 3], List.replicate 6 0⟩, 2, 1⟩ ∧
    (normalizeBetas (some ⟨[10], List.replicate 10 0⟩) 2).2.shape = [1, 10] ∧
    [1, 10] ≠ [2, 10] := by
  refine ⟨by decide, by decide, by decide⟩

theorem C5_witness :
    ∃ res : NormResult,
      normalizePose ⟨[2, 5, 15, 3], List.replicate 450 0⟩ ⟨[2, 5, 3], List.replicate 30 0⟩
          ⟨[2, 5, 3], List.replicate 30 0⟩ = .ok res ∧
      res.B = 2 ∧ res.T = 5 ∧
      res.pose_body.shape = [2, 5, 45] ∧
      res.root_orient.shape = [2, 5, 3] ∧
      res.trans.shape = [2, 5, 3] ∧
      (normalizeBetas (some ⟨[2, 10], List.replicate 20 0⟩) 2).2.shape = [2, 10] :=
  C5_canonical_shapes ⟨[2, 5, 15, 3], List.replicate 450 0⟩ ⟨[2, 5, 3], List.replicate 30 0⟩
    ⟨[2, 5, 3], List.replicate 30 0⟩ (some ⟨[2, 10], List.replicate 20 0⟩) 2 5
    (by decide) (by decide)
    (Or.inl ⟨rfl, by decide, rfl, rfl⟩)
    (Or.inr ⟨⟨[2, 10], List.replicate 20 0⟩, rfl, Or.inl rfl⟩)

/-- An already-canonical `[B,T,45]` bundle with `B = 1`, `T = 2`. -/
def rawCanonical12 : RawBundle :=
  ⟨⟨[1, 2, 45], List.replicate 90 0⟩, ⟨[1, 2, 3], List.replicate 6 0⟩,
   ⟨[1, 2, 3], List.replicate 6 0⟩, none, none, none, none, none⟩

/-- C1 (code bug): the rank-3 branch of the normalizer treats *every*
rank-3 `pose_body` as `[T,15,3]`, so an already-canonical `[1,2,45]`
array is reshaped to `[1,1,90]` and the conversion dies on the
last-dimension-45 assertion instead of passing the array through
unchanged; likewise `[2,1,45]` survives but comes out as `[1,2,45]`,
not unchanged. -/
theorem C1_canonical_not_idempotent :
    normalizePose rawCanonical12.pose_body rawCanonical12.root_orient rawCanonical12.trans
      = .error (.assertLastDimError 90) ∧
    convert_mano_to_smplx rawCanonical12 = .error (.assertLastDimError 90) ∧
    (normalizePose ⟨[2, 1, 45], List.replicate 90 0⟩ ⟨[2, 1, 3], List.replicate 6 0⟩
        ⟨[2, 1, 3], List.replicate 6 0⟩).map (fun res => res.pose_body.shape) = .ok [1, 2, 45] ∧
    [1, 2, 45] ≠ [2, 1, 45] := by
  refine ⟨by decide, by decide, by decide, by decide⟩

/-- A raised error during normalization aborts the whole conversion. -/
lemma convert_err_of_normalize_err (r : RawBundle) (e : PyError)
    (h : normalizePose r.pose_body r.root_orient r.trans = .error e) :
    convert_mano_to_smplx r = .error e := by
  simp [convert_mano_to_smplx, h, Bind.bind, Except.bind]

/-- With `pose_body` of rank outside {2,3,4}, the `else` branch reads
`shape[0]` and `shape[1]` (an `IndexError` for rank ≤ 1) and otherwise
fails the rank-3 assertion, which names the shape. -/
lemma normalizePose_bad_rank (pb ro tr : NpArray)
    (h2 : pb.rank ≠ 2) (h3 : pb.rank ≠ 3) (h4 : pb.rank ≠ 4) :
    (pb.rank ≤ 1 → normalizePose pb ro tr = .error .indexError) ∧
    (4 < pb.rank → normalizePose pb ro tr = .error (.assertRankError pb.shape)) := by
  obtain ⟨s, d⟩ := pb
  match s with
  | [] =>
      constructor
      · intro
        simp [normalizePose, NpArray.rank, shapeAt, Bind.bind, Except.bind]
      · intro h; simp [NpArray.rank] at h
  | [a] =>
      constructor
      · intro
        simp [normalizePose, NpArray.rank, shapeAt, Bind.bind, Except.bind]
      · intro h; simp [NpArray.rank] at h
  | [a, b] => exact absurd rfl h2
  | [a, b, c] => exact absurd rfl h3
  | [a, b, c, e] => exact absurd rfl h4
  | a :: b :: c :: e :: f :: rest =>
      constructor
      · intro h; simp [NpArray.rank] at h
      · intro
        simp [normalizePose, NpArray.rank, shapeAt, checkAsserts,
          Bind.bind, Except.bind, Functor.map, Except.map, Pure.pure, Except.pure]

/-- C2 (amended): any `pose_body` rank outside {2,3,4} makes the
conversion fail before any output bundle exists; for rank ≥ 5 the error
is the rank assertion naming the offending shape, but for rank ≤ 1 the
failure is a bare index error whose message does not name the shape. -/
theorem C2_unsupported_rank_fails (r : RawBundle)
    (h2 : r.pose_body.rank ≠ 2) (h3 : r.pose_body.rank ≠ 3) (h4 : r.pose_body.rank ≠ 4) :
    exceptOk (convert_mano_to_smplx r) = false ∧
    (r.pose_body.rank ≤ 1 → convert_mano_to_smplx r = .error .indexError) ∧
    (4 < r.pose_body.rank →
      convert_mano_to_smplx r = .error (.assertRankError r.pose_body.shape)) := by
  obtain ⟨hlow, hhigh⟩ :=
    normalizePose_bad_rank r.pose_body r.root_orient r.trans h2 h3 h4
  have hcase : r.pose_body.rank ≤ 1 ∨ 4 < r.pose_body.rank := by omega
  constructor
  · rcases hcase with h | h
    · rw [convert_err_of_normalize_err r _ (hlow h)]; rfl
    · rw [convert_err_of_normalize_err r _ (hhigh h)]; rfl
  constructor
  · exact fun h => convert_err_of_normalize_err r _ (hlow h)
  · exact fun h => convert_err_of_normalize_err r _ (hhigh h)

theorem C2_witness :
    exceptOk (convert_mano_to_smplx ⟨⟨[45], List.replicate 45 0⟩, ⟨[3], List.replicate 3 0⟩,
      ⟨[3], List.replicate 3 0⟩, none, none, none, none, none⟩) = false :=
  (C2_unsupported_rank_fails ⟨⟨[45], List.replicate 45 0⟩, ⟨[3], List.replicate 3 0⟩,
    ⟨[3], List.replicate 3 0⟩, none, none, none, none, none⟩
    (by decide) (by decide) (by decide)).1

/-- C2 counterexample: a rank-1 `pose_body` (shape `[45]`) is rejected,
but with a bare `IndexError` — the claim requires an error naming the
unsupported shape, and this one names nothing. -/
theorem C2_counterexample :
    convert_mano_to_smplx ⟨⟨[45], List.replicate 45 0⟩, ⟨[3], List.replicate 3 0⟩,
        ⟨[3], List.replicate 3 0⟩, none, none, none, none, none⟩ = .error .indexError ∧
    PyError.indexError.namesShape = false := by
  refine ⟨by decide, rfl⟩

/-- A raw bundle: rank-2 `[2,45]` pose_body, no `is_right`. -/
def rawNoSideRank2 : RawBundle :=
  ⟨⟨[2, 45], List.replicate 90 0⟩, ⟨[2, 3], List.replicate 6 0⟩,
   ⟨[2, 3], List.replicate 6 0⟩, none, none, none, none, none⟩

/-- C4 (code bug): sidedness inference runs on the *raw* bundle, so with
`is_right` absent and a raw rank-2 `[T,45]` pose_body (here `T = 2`) the
recorded frame count is the raw `shape[1] = 45`, while the canonical
canonical frame count is `T = 2`. -/
theorem C4_frameCount_mismatch :
    analyze_hands_in_data rawNoSideRank2 = .ok ([Warning.noIsRight], [⟨0, true, 45⟩]) ∧
    (normalizePose rawNoSideRank2.pose_body rawNoSideRank2.root_orient
        rawNoSideRank2.trans).map (fun res => res.T) = .ok 2 ∧
    (45 : Nat) ≠ 2 := by
  refine ⟨by decide, by decide, by decide⟩

/-- Two trajectories from rank-4 pose data, `is_right` of shape `[2,1]`,
and a rank-1 `betas` of shape `[10]`. -/
def rawBetasRank1MultiTraj : RawBundle :=
  ⟨⟨[2, 1, 15, 3], List.replicate 90 0⟩, ⟨[2, 1, 3], List.replicate 6 0⟩,
   ⟨[2, 1, 3], List.replicate 6 0⟩, some ⟨[10], List.replicate 10 0⟩,
   some ⟨[2, 1], [1, 0]⟩, none, none, none⟩

/-- C10: with `B = 2` trajectories, a rank-1 `betas` is promoted only to
`[1,10]`, so the `betas[1]` read of the remapper for trajectory 1 is out of
bounds: the conversion fails with an indexing error and produces no
output bundles. -/
theorem C10_rank1_betas_multi_traj_oob :
    convert_mano_to_smplx rawBetasRank1MultiTraj = .error .indexError ∧
    (normalizeBetas rawBetasRank1MultiTraj.betas 2).2.shape = [1, 10] := by
  refine ⟨by decide, by decide⟩

lemma exceptBind_ok_iff {ε α β : Type} (x : Except ε α) (f : α → Except ε β) (b : β) :
    (x >>= f) = .ok b ↔ ∃ a, x = .ok a ∧ f a = .ok b := by
  cases x <;> simp [Bind.bind, Except.bind]

lemma exceptMap_ok_iff {ε α β : Type} (f : α → β) (x : Except ε α) (b : β) :
    (f <$> x) = .ok b ↔ ∃ a, x = .ok a ∧ f a = b := by
  cases x <;> simp [Functor.map, Except.map]

lemma exceptPure_ok_iff {ε α : Type} (a b : α) :
    (pure a : Except ε α) = .ok b ↔ a = b := by
  simp [Pure.pure, Except.pure]

/-- Indexing along axis 0 drops the leading dimension. -/
lemma index0_ok_shape (a : NpArray) (b : Nat) (v : NpArray)
    (h : a.index0 b = .ok v) : v.shape = a.shape.tail := by
  obtain ⟨s, dt⟩ := a
  cases s with
  | nil => simp [NpArray.index0] at h
  | cons d rest =>
      simp only [NpArray.index0] at h
      by_cases hb : b < d
      · rw [if_pos hb] at h
        obtain rfl := Except.ok.inj h
        rfl
      · rw [if_neg hb] at h
        exact Except.noConfusion h

/-- C3: in every output bundle built for a trajectory, the hand pose
`pose_body[b]` (shape `[T,45]`) lands in `right_hand_pose` when the
`HandInfo` of the trajectory says right and in `left_hand_pose` otherwise;
the opposite hand slot is an all-zero array of the same shape `[T,45]`;
and `body_pose` is an all-zero `[T,63]` array regardless of input. -/
theorem C3_hand_routing (pb ro tr be : NpArray) (B T : Nat)
    (camR camT intr : Option NpArray) (info : HandInfo) (out : OutputBundle)
    (hs : pb.shape = [B, T, 45])
    (h : buildBundle pb ro tr be B T camR camT intr info = .ok out) :
    out.body_pose = NpArray.zeros [T, 63] ∧
    ∃ row : NpArray, pb.index0 info.batch_idx = .ok row ∧ row.shape = [T, 45] ∧
      ((info.is_right = true ∧ out.right_hand_pose = row ∧
          out.left_hand_pose = NpArray.zeros [T, 45]) ∨
       (info.is_right = false ∧ out.left_hand_pose = row ∧
          out.right_hand_pose = NpArray.zeros [T, 45])) := by
  simp only [buildBundle, exceptBind_ok_iff, exceptMap_ok_iff, exceptPure_ok_iff] at h
  obtain ⟨row, hrow, go, hgo, t, ht, bm, hbm, cr, hcr, ct, hct, hout⟩ := h
  have hrs : row.shape = [T, 45] := by
    rw [index0_ok_shape pb info.batch_idx row hrow, hs]
    rfl
  subst hout
  refine ⟨rfl, row, hrow, hrs, ?_⟩
  cases hir : info.is_right with
  | true => exact Or.inl ⟨rfl, by simp [hir], by simp [hir]⟩
  | false => exact Or.inr ⟨rfl, by simp [hir], by simp [hir]⟩

/-- Concrete single-trajectory remap used to witness the routing claim. -/
def outC3W : OutputBundle :=
  (buildBundle ⟨[1, 1, 45], List.replicate 45 1⟩ ⟨[1, 1, 3], List.replicate 3 0⟩
    ⟨[1, 1, 3], List.replicate 3 0⟩ ⟨[1, 10], List.replicate 10 0⟩ 1 1 none none none
    ⟨0, true, 1⟩).toOption.getD defaultBundle

theorem C3_witness :
    outC3W.body_pose = NpArray.zeros [1, 63] ∧
    ∃ row : NpArray, (⟨[1, 1, 45], List.replicate 45 1⟩ : NpArray).index0 0 = .ok row ∧
      row.shape = [1, 45] ∧
      ((true = true ∧ outC3W.right_hand_pose = row ∧
          outC3W.left_hand_pose = NpArray.zeros [1, 45]) ∨
       (true = false ∧ outC3W.left_hand_pose = row ∧
          outC3W.right_hand_pose = NpArray.zeros [1, 45])) :=
  C3_hand_routing ⟨[1, 1, 45], List.replicate 45 1⟩ ⟨[1, 1, 3], List.replicate 3 0⟩
    ⟨[1, 1, 3], List.replicate 3 0⟩ ⟨[1, 10], List.replicate 10 0⟩ 1 1 none none none
    ⟨0, true, 1⟩ outC3W rfl (by decide)

/-- What a successful camera pass-through means: copied verbatim unless
the rank threshold and `B > 1` both hold, in which case it is indexed. -/
lemma camPass_ok_spec (cam : NpArray) (threshold B b : Nat) (o : Option NpArray)
    (h : camPass (some cam) threshold B b = .ok o) :
    (¬(threshold < cam.rank ∧ 1 < B) → o = some cam) ∧
    ((threshold < cam.rank ∧ 1 < B) → ∃ v, cam.index0 b = .ok v ∧ o = some v) := by
  simp only [camPass] at h
  by_cases hc : threshold < cam.rank ∧ 1 < B
  · rw [if_pos hc] at h
    simp only [exceptBind_ok_iff, exceptMap_ok_iff, exceptPure_ok_iff] at h
    obtain ⟨v, hv, ho⟩ := h
    exact ⟨fun hn => absurd hc hn, fun _ => ⟨v, hv, ho.symm⟩⟩
  · rw [if_neg hc] at h
    obtain rfl := Except.ok.inj h
    exact ⟨fun _ => rfl, fun hcc => absurd hcc hc⟩

/-- C7 (amended): `intrins` is always copied through unmodified, and a
present `cam_R`/`cam_t` is indexed by the trajectory exactly when `B > 1`
and its rank exceeds 2 (for `cam_R`) or 1 (for `cam_t`) — the decision
looks only at the rank, never at whether the leading dimension matches
`B` (see the counterexample); otherwise the field is copied verbatim. -/
theorem C7_camera_fields (pb ro tr be : NpArray) (B T : Nat)
    (camR camT intr : Option NpArray) (info : HandInfo) (out : OutputBundle)
    (h : buildBundle pb ro tr be B T camR camT intr info = .ok out) :
    out.intrins = intr ∧
    (camR = none → out.cam_R = none) ∧
    (∀ c, camR = some c → ¬(2 < c.rank ∧ 1 < B) → out.cam_R = some c) ∧
    (∀ c, camR = some c → (2 < c.rank ∧ 1 < B) →
      ∃ v, c.index0 info.batch_idx = .ok v ∧ out.cam_R = some v) ∧
    (camT = none → out.cam_t = none) ∧
    (∀ c, camT = some c → ¬(1 < c.rank ∧ 1 < B) → out.cam_t = some c) ∧
    (∀ c, camT = some c → (1 < c.rank ∧ 1 < B) →
      ∃ v, c.index0 info.batch_idx = .ok v ∧ out.cam_t = some v) := by
  simp only [buildBundle, exceptBind_ok_iff, exceptMap_ok_iff, exceptPure_ok_iff] at h
  obtain ⟨row, hrow, go, hgo, t, ht, bm, hbm, cr, hcr, ct, hct, hout⟩ := h
  subst hout
  refine ⟨rfl, ?_, ?_, ?_, ?_, ?_, ?_⟩
  · rintro rfl
    simp only [camPass] at hcr
    exact (Except.ok.inj hcr).symm
  · rintro c rfl hc
    exact (camPass_ok_spec c 2 B info.batch_idx cr hcr).1 hc
  · rintro c rfl hc
    obtain ⟨v, hv, rfl⟩ := (camPass_ok_spec c 2 B info.batch_idx cr hcr).2 hc
    exact ⟨v, hv, rfl⟩
  · rintro rfl
    simp only [camPass] at hct
    exact (Except.ok.inj hct).symm
  · rintro c rfl hc
    exact (camPass_ok_spec c 1 B info.batch_idx ct hct).1 hc
  · rintro c rfl hc
    obtain ⟨v, hv, rfl⟩ := (camPass_ok_spec c 1 B info.batch_idx ct hct).2 hc
    exact ⟨v, hv, rfl⟩

/-- Two right-hand trajectories with a shared `cam_R` of shape `[3,3,3]`
whose leading dimension (3) differs from `B = 2`. -/
def rawCamMismatch : RawBundle :=
  ⟨⟨[2, 1, 15, 3], List.replicate 90 0⟩, ⟨[2, 1, 3], List.replicate 6 0⟩,
   ⟨[2, 1, 3], List.replicate 6 0⟩, some ⟨[2, 10], List.replicate 20 0⟩,
   some ⟨[2, 1], [1, 1]⟩, some ⟨[3, 3, 3], List.replicate 27 0⟩, none, none⟩

/-- C7 counterexample: `cam_R` has leading dimension 3 ≠ B = 2, so the
claim demands it be copied unmodified into every output bundle; the code
looks only at the rank (3 > 2) and `B > 1`, so it indexes the array and
the first output bundle carries `cam_R[0]` of shape `[3,3]`, not the
original `[3,3,3]` array. -/
theorem C7_counterexample :
    ((convert_mano_to_smplx rawCamMismatch).map
      (fun p => (p.2.getD 0 defaultBundle).cam_R))
      = .ok (some ⟨[3, 3], List.replicate 9 0⟩) ∧
    (some (⟨[3, 3], List.replicate 9 0⟩ : NpArray)
      ≠ some (⟨[3, 3, 3], List.replicate 27 0⟩ : NpArray)) ∧
    (3 : Nat) ≠ 2 := by
  refine ⟨by decide, by decide, by decide⟩

/-- Concrete remap with a rank-2 `cam_R` and rank-1 `cam_t`, `B = 1`:
both are copied verbatim. -/
def outC7W : OutputBundle :=
  (buildBundle ⟨[1, 1, 45], List.replicate 45 1⟩ ⟨[1, 1, 3], List.replicate 3 0⟩
    ⟨[1, 1, 3], List.replicate 3 0⟩ ⟨[1, 10], List.replicate 10 0⟩ 1 1
    (some ⟨[3, 3], List.replicate 9 0⟩) (some ⟨[3], List.replicate 3 0⟩)
    (some ⟨[3, 3], List.replicate 9 7⟩) ⟨0, true, 1⟩).toOption.getD defaultBundle

theorem C7_witness :
    outC7W.intrins = some ⟨[3, 3], List.replicate 9 7⟩ ∧
    outC7W.cam_R = some ⟨[3, 3], List.replicate 9 0⟩ ∧
    outC7W.cam_t = some ⟨[3], List.replicate 3 0⟩ :=
  have h := C7_camera_fields ⟨[1, 1, 45], List.replicate 45 1⟩ ⟨[1, 1, 3], List.replicate 3 0⟩
    ⟨[1, 1, 3], List.replicate 3 0⟩ ⟨[1, 10], List.replicate 10 0⟩ 1 1
    (some ⟨[3, 3], List.replicate 9 0⟩) (some ⟨[3], List.replicate 3 0⟩)
    (some ⟨[3, 3], List.replicate 9 7⟩) ⟨0, true, 1⟩ outC7W (by decide)
  ⟨h.1, h.2.2.1 _ rfl (by decide), h.2.2.2.2.2.1 _ rfl (by decide)⟩

/-- Closed form of the rank-2 `is_right` loop when the time axis is
non-empty: one `HandInfo` per listed row, plus one inconsistency warning
per row with more than one distinct value. -/
lemma analyzeRows_ok (ir : NpArray) (hT : 0 < ir.shape.getD 1 0) (bs : List Nat) :
    analyzeRows ir bs = .ok
      ((bs.map fun b => if 1 < (npUnique (rowOf ir b)).length
          then [Warning.inconsistentIsRight b (npUnique (rowOf ir b))] else []).flatten,
       bs.map fun b => ⟨b, (rowOf ir b).getD 0 0 != 0, ir.shape.getD 1 0⟩) := by
  induction bs with
  | nil => rfl
  | cons b rest ih =>
      have hrow : analyzeRow ir b = .ok
          (if 1 < (npUnique (rowOf ir b)).length
             then [Warning.inconsistentIsRight b (npUnique (rowOf ir b))] else [],
           ⟨b, (rowOf ir b).getD 0 0 != 0, ir.shape.getD 1 0⟩) := by
        simp only [analyzeRow]
        rw [if_pos hT]
      simp [analyzeRows, hrow, ih, Bind.bind, Except.bind, Pure.pure, Except.pure,
        Functor.map, Except.map]

/-- C8: when `is_right` has shape `[B,T]` with a non-empty time axis,
sidedness inference yields one `HandInfo` per row whose sidedness is the
boolean value of the first element of the row, and a non-fatal warning naming
the trajectory index and the distinct values appears exactly for the
rows with more than one distinct value; for any rank other than 1 or 2,
inference is a hard failure naming the unsupported shape. -/
theorem C8_is_right_rank2_and_bad_rank (r : RawBundle) (ir : NpArray) (B0 T0 : Nat)
    (hir : r.is_right = some ir) :
    (ir.shape = [B0, T0] → 0 < T0 →
      ∃ ws infos, analyze_hands_in_data r = .ok (ws, infos) ∧
        infos = (List.range B0).map (fun b => ⟨b, (rowOf ir b).getD 0 0 != 0, T0⟩) ∧
        (∀ b vals, Warning.inconsistentIsRight b vals ∈ ws ↔
          (b < B0 ∧ vals = npUnique (rowOf ir b) ∧ 1 < vals.length))) ∧
    (ir.rank ≠ 1 → ir.rank ≠ 2 →
      analyze_hands_in_data r = .error (.valueErrorIsRightShape ir.shape)) := by
  constructor
  · intro hs hT
    have hr1 : ir.rank ≠ 1 := by simp [NpArray.rank, hs]
    have hr2 : ir.rank = 2 := by simp [NpArray.rank, hs]
    have hB0 : ir.shape.getD 0 0 = B0 := by rw [hs]; rfl
    have hT0 : ir.shape.getD 1 0 = T0 := by rw [hs]; rfl
    have hTpos : 0 < ir.shape.getD 1 0 := by rw [hT0]; exact hT
    have han : analyze_hands_in_data r = analyzeRows ir (List.range B0) := by
      simp [analyze_hands_in_data, hir, hr1, hr2, hs]
    rw [han, analyzeRows_ok ir hTpos (List.range B0)]
    refine ⟨_, _, rfl, by rw [hT0], ?_⟩
    intro b vals
    constructor
    · intro hmem
      rw [List.mem_flatten] at hmem
      obtain ⟨l, hl, hwl⟩ := hmem
      rw [List.mem_map] at hl
      obtain ⟨b2, hb2, rfl⟩ := hl
      by_cases hc : 1 < (npUnique (rowOf ir b2)).length
      · rw [if_pos hc] at hwl
        rw [List.mem_singleton] at hwl
        obtain ⟨rfl, rfl⟩ := Warning.inconsistentIsRight.inj hwl
        exact ⟨List.mem_range.mp hb2, rfl, hc⟩
      · rw [if_neg hc] at hwl
        exact absurd hwl (List.not_mem_nil _)
    · rintro ⟨hb, rfl, hlen⟩
      rw [List.mem_flatten]
      refine ⟨[Warning.inconsistentIsRight b (npUnique (rowOf ir b))], ?_, by simp⟩
      rw [List.mem_map]
      exact ⟨b, List.mem_range.mpr hb, by rw [if_pos hlen]⟩
  · intro h1 h2
    simp [analyze_hands_in_data, hir, h1, h2]

/-- Two trajectories; the `is_right` row of trajectory 1 is inconsistent. -/
def rawC8W : RawBundle :=
  ⟨⟨[2, 2, 15, 3], List.replicate 180 0⟩, ⟨[2, 2, 3], List.replicate 12 0⟩,
   ⟨[2, 2, 3], List.replicate 12 0⟩, none, some ⟨[2, 2], [1, 1, 1, 0]⟩, none, none, none⟩

theorem C8_witness :
    ∃ ws infos, analyze_hands_in_data rawC8W = .ok (ws, infos) ∧
      infos = (List.range 2).map
        (fun b => ⟨b, (rowOf ⟨[2, 2], [1, 1, 1, 0]⟩ b).getD 0 0 != 0, 2⟩) ∧
      (∀ b vals, Warning.inconsistentIsRight b vals ∈ ws ↔
        (b < 2 ∧ vals = npUnique (rowOf ⟨[2, 2], [1, 1, 1, 0]⟩ b) ∧ 1 < vals.length)) :=
  (C8_is_right_rank2_and_bad_rank rawC8W ⟨[2, 2], [1, 1, 1, 0]⟩ 2 2 rfl).1 rfl (by decide)

/-- The metadata of a built bundle records the trajectory index, the
sidedness and the canonical frame count. -/
lemma buildBundle_ok_meta (pb ro tr be : NpArray) (B T : Nat)
    (camR camT intr : Option NpArray) (info : HandInfo) (out : OutputBundle)
    (h : buildBundle pb ro tr be B T camR camT intr info = .ok out) :
    out.meta_batch_idx = info.batch_idx ∧ out.meta_is_right = info.is_right ∧
    out.meta_num_frames = T := by
  simp only [buildBundle, exceptBind_ok_iff, exceptMap_ok_iff, exceptPure_ok_iff] at h
  obtain ⟨row, hrow, go, hgo, t, ht, bm, hbm, cr, hcr, ct, hct, hout⟩ := h
  subst hout
  exact ⟨rfl, rfl, rfl⟩

/-- C9: with no `is_right` field, sidedness inference warns and returns
exactly one `HandInfo`, for trajectory 0, with right sidedness (reading
the frame count off the raw `pose_body.shape[1]`), and it raises nothing;
hence a successful conversion carries the warning and yields a single
output bundle whose sidedness is right. -/
theorem C9_missing_is_right_defaults (r : RawBundle) (hir : r.is_right = none)
    (hrank : 1 < r.pose_body.shape.length) :
    analyze_hands_in_data r
      = .ok ([Warning.noIsRight], [⟨0, true, r.pose_body.shape.get ⟨1, hrank⟩⟩]) ∧
    (∀ ws outs, convert_mano_to_smplx r = .ok (ws, outs) →
      Warning.noIsRight ∈ ws ∧ outs.length = 1 ∧
      (outs.headD defaultBundle).meta_is_right = true) := by
  have hana : analyze_hands_in_data r
      = .ok ([Warning.noIsRight], [⟨0, true, r.pose_body.shape.get ⟨1, hrank⟩⟩]) := by
    simp only [analyze_hands_in_data, hir]
    simp [shapeAt, hrank, Bind.bind, Except.bind, Pure.pure, Except.pure,
      Functor.map, Except.map]
  refine ⟨hana, ?_⟩
  intro ws outs hconv
  simp only [convert_mano_to_smplx, exceptBind_ok_iff, exceptMap_ok_iff,
    exceptPure_ok_iff] at hconv
  obtain ⟨nr, hnr, whp, hwh, outs2, houts, heq⟩ := hconv
  rw [hana] at hwh
  obtain rfl := Except.ok.inj hwh
  obtain ⟨rfl, rfl⟩ := Prod.mk.injEq .. ▸ heq
  simp only [buildAll, exceptBind_ok_iff, exceptPure_ok_iff] at houts
  obtain ⟨o, ho, os, hos, rfl⟩ := houts
  obtain rfl := Except.ok.inj hos
  have hmeta := buildBundle_ok_meta _ _ _ _ _ _ _ _ _ _ _ ho
  refine ⟨by simp, rfl, ?_⟩
  simpa using hmeta.2.1

/-- Single rank-2 trajectory with no `is_right` and no `betas`. -/
def rawC9W : RawBundle :=
  ⟨⟨[5, 45], List.replicate 225 0⟩, ⟨[5, 3], List.replicate 15 0⟩,
   ⟨[5, 3], List.replicate 15 0⟩, none, none, none, none, none⟩

/-- The warnings and bundles of the successful conversion of `rawC9W`. -/
def convC9W : List Warning × List OutputBundle :=
  (convert_mano_to_smplx rawC9W).toOption.getD ([], [])

theorem C9_witness :
    analyze_hands_in_data rawC9W = .ok ([Warning.noIsRight], [⟨0, true, 45⟩]) ∧
    (Warning.noIsRight ∈ convC9W.1 ∧ convC9W.2.length = 1 ∧
      (convC9W.2.headD defaultBundle).meta_is_right = true) :=
  have h := C9_missing_is_right_defaults rawC9W rfl (by decide)
  ⟨h.1, h.2 convC9W.1 convC9W.2 (by decide)⟩
